import Mathlib

/-!
Verification of the graph-layout engine of the `flow` diagram editor.

The repository wraps two generations of an auto-layout routine, both named
`getLayoutedElements`:

* the ELK generation (`src/unnamed/part_012`): asynchronous, delegates to
  `elkjs`, has an empty-node fast path and a `try`/`catch` fallback;
* the Dagre generation (appended to `src/src/utils/generateWorkflow.ts`):
  synchronous, delegates to `@dagrejs/dagre`, converts center coordinates to
  top-left and assigns handle sides.

The external layout libraries (`elkjs`, `dagre`) are not part of the
repository; they are modelled as explicitly passed functions (`elkLayout`,
`dagreLayout` parameters), so every theorem quantifies over arbitrary library
behaviour, and a failing library call is an `Except.error` result.  JavaScript
numbers are modelled as `Int` (none of the wrapped arithmetic can overflow or
produce non-integers on integer inputs).  A thrown exception crossing the
wrapper boundary is modelled as an `Except.error` return value.
-/

/-- A 2D position, `{ x, y }` in the source. -/
structure Pos where
  x : Int
  y : Int
deriving DecidableEq, Repr

/-- React Flow handle side (`'top' | 'bottom' | 'left' | 'right'`). -/
inductive HandleSide where
  | top
  | bottom
  | left
  | right
deriving DecidableEq, Repr

/-- A React Flow node as the layout code uses it: an id, a position, optional
preferred handle sides, per-node dimension fields, and an opaque `data`
payload standing for every remaining field the layout code never touches. -/
structure Node where
  id : String
  position : Pos
  sourcePosition : Option HandleSide
  targetPosition : Option HandleSide
  width : Int
  height : Int
  data : String
deriving DecidableEq, Repr

/-- A React Flow edge as the layout code uses it: id, source node id, target
node id.  JavaScript `edge.id || ...` treats the empty string as falsy. -/
structure Edge where
  id : String
  source : String
  target : String
deriving DecidableEq, Repr

/-- The layout direction enum: TB, LR, BT or RL (identical in both
generations). -/
inductive LayoutDirection where
  | TB
  | LR
  | BT
  | RL
deriving DecidableEq, Repr

namespace Elk

/-- Constant `NODE_WIDTH = 272` in the ELK generation. -/
def NODE_WIDTH : Int := 272

/-- Constant `NODE_HEIGHT = 120` in the ELK generation. -/
def NODE_HEIGHT : Int := 120

/-- Map from our direction to the ELK direction string. -/
def directionMap : LayoutDirection → String
  | LayoutDirection.TB => "DOWN"
  | LayoutDirection.BT => "UP"
  | LayoutDirection.LR => "RIGHT"
  | LayoutDirection.RL => "LEFT"

/-- One child of the ELK input graph: `{ id, width, height }`. -/
structure ElkChild where
  id : String
  width : Int
  height : Int
deriving DecidableEq, Repr

/-- One edge of the ELK input graph: `{ id, sources, targets }`. -/
structure ElkEdge where
  id : String
  sources : List String
  targets : List String
deriving DecidableEq, Repr

/-- The ELK input graph handed to `elk.layout`: the fixed option strings, the
children built from the nodes, and the edges built from the edges. -/
structure ElkGraph where
  id : String
  layoutOptions : List (String × String)
  children : List ElkChild
  edges : List ElkEdge
deriving DecidableEq, Repr

/-- The fixed `layoutOptions` record of the ELK generation. -/
def layoutOptions (direction : LayoutDirection) : List (String × String) :=
  [("elk.algorithm", "layered"),
   ("elk.direction", directionMap direction),
   ("elk.spacing.nodeNode", "80"),
   ("elk.layered.spacing.nodeNodeBetweenLayers", "100"),
   ("elk.spacing.edgeNode", "40"),
   ("elk.spacing.edgeEdge", "20"),
   ("elk.edgeRouting", "ORTHOGONAL"),
   ("elk.layered.crossingMinimization.strategy", "LAYER_SWEEP"),
   ("elk.layered.nodePlacement.strategy", "NETWORK_SIMPLEX"),
   ("elk.separateConnectedComponents", "true"),
   ("elk.layered.considerModelOrder.strategy", "NODES_AND_EDGES")]

/-- The `elkGraph` object literal of `getLayoutedElements` (ELK generation):
every node becomes a child with the hard-coded footprint, every edge becomes
an ELK edge with id `edge.id || e<index>`.  No edge is filtered. -/
def buildGraph (nodes : List Node) (edges : List Edge)
    (direction : LayoutDirection) : ElkGraph :=
  { id := "root"
    layoutOptions := layoutOptions direction
    children := nodes.map fun node =>
      { id := node.id, width := NODE_WIDTH, height := NODE_HEIGHT }
    edges := edges.enum.map fun p =>
      { id := if p.2.id = "" then "e" ++ toString p.1 else p.2.id
        sources := [p.2.source]
        targets := [p.2.target] } }

/-- A child of the graph returned by `elk.layout`: coordinates may be
`undefined` (`elkNode.x !== undefined` is checked in the source). -/
structure ElkChildOut where
  id : String
  x : Option Int
  y : Option Int
deriving DecidableEq, Repr

/-- The graph returned by `elk.layout`; `layoutedGraph.children?` may be
`undefined`. -/
structure ElkGraphOut where
  children : Option (List ElkChildOut)
deriving DecidableEq, Repr

/-- Reading `layoutedGraph.children?` with a missing list as empty (the optional
chaining makes `find` yield `undefined` either way). -/
def childrenOf (out : ElkGraphOut) : List ElkChildOut :=
  match out.children with
  | some cs => cs
  | none => []

/-- The body of the `nodes.map` callback in the ELK generation: look the node
up in the layouted graph by id; if found with both coordinates defined,
replace the position, otherwise return the node unchanged. -/
def applyLayout (out : ElkGraphOut) (node : Node) : Node :=
  match (childrenOf out).find? (fun n => n.id == node.id) with
  | some elkNode =>
    match elkNode.x, elkNode.y with
    | some x, some y => { node with position := { x := x, y := y } }
    | some _, none => node
    | none, some _ => node
    | none, none => node
  | none => node

/-- Function `getLayoutedElements` of the ELK generation.  `elkLayout` stands for the
external `elk.layout` call; a rejected promise is `Except.error`.  The
`try`/`catch` makes the wrapper itself total: it always returns a pair. -/
def getLayoutedElements (elkLayout : ElkGraph → Except String ElkGraphOut)
    (nodes : List Node) (edges : List Edge) (direction : LayoutDirection) :
    List Node × List Edge :=
  if nodes.length = 0 then
    ([], [])
  else
    match elkLayout (buildGraph nodes edges direction) with
    | Except.ok layoutedGraph => (nodes.map (applyLayout layoutedGraph), edges)
    | Except.error _ => (nodes, edges)

/-- Function `getLayoutedElementsSync` just forwards to `getLayoutedElements`. -/
def getLayoutedElementsSync (elkLayout : ElkGraph → Except String ElkGraphOut)
    (nodes : List Node) (edges : List Edge) (direction : LayoutDirection) :
    List Node × List Edge :=
  getLayoutedElements elkLayout nodes edges direction

end Elk

namespace Dagre

/-- Constant `NODE_WIDTH = 256` in the Dagre generation. -/
def NODE_WIDTH : Int := 256

/-- Constant `NODE_HEIGHT = 120` in the Dagre generation. -/
def NODE_HEIGHT : Int := 120

/-- The `g.setGraph({...})` record of the Dagre generation. -/
structure DagreConfig where
  rankdir : LayoutDirection
  nodesep : Int
  ranksep : Int
  marginx : Int
  marginy : Int
deriving DecidableEq, Repr

/-- The dagre graph as the wrapper populates it: the config, the sequence of
`g.setNode(id, { width, height })` calls and the sequence of
`g.setEdge(source, target)` calls, in program order. -/
structure DagreGraph where
  config : DagreConfig
  nodeList : List (String × Int × Int)
  edgeList : List (String × String)
deriving DecidableEq, Repr

/-- The graph-building prefix of `getLayoutedElements` (Dagre generation):
every node is registered with the hard-coded footprint, every edge is handed
to `setEdge` unfiltered. -/
def buildGraph (nodes : List Node) (edges : List Edge)
    (direction : LayoutDirection) : DagreGraph :=
  { config :=
      { rankdir := direction, nodesep := 50, ranksep := 80
        marginx := 50, marginy := 50 }
    nodeList := nodes.map fun node => (node.id, NODE_WIDTH, NODE_HEIGHT)
    edgeList := edges.map fun edge => (edge.source, edge.target) }

/-- The body of the `nodes.map` callback in the Dagre generation: read the
center position `g.node(node.id)` computed by the library, subtract half the
hard-coded footprint (center to top-left), and overwrite the handle sides
from the direction. -/
def applyLayout (posOf : String → Pos) (direction : LayoutDirection)
    (node : Node) : Node :=
  let nodeWithPosition := posOf node.id
  { node with
    position :=
      { x := nodeWithPosition.x - NODE_WIDTH / 2
        y := nodeWithPosition.y - NODE_HEIGHT / 2 }
    sourcePosition :=
      some (if direction = LayoutDirection.LR ∨ direction = LayoutDirection.RL
        then HandleSide.right else HandleSide.bottom)
    targetPosition :=
      some (if direction = LayoutDirection.LR ∨ direction = LayoutDirection.RL
        then HandleSide.left else HandleSide.top) }

/-- Function `getLayoutedElements` of the Dagre generation.  `dagreLayout` stands for
the external `Dagre.layout(g)` call followed by the `g.node(id)` position
reads; a throw inside it is `Except.error`.  The wrapper has no `try`/`catch`,
so a library failure propagates to the caller as `Except.error`. -/
def getLayoutedElements
    (dagreLayout : DagreGraph → Except String (String → Pos))
    (nodes : List Node) (edges : List Edge) (direction : LayoutDirection) :
    Except String (List Node × List Edge) :=
  match dagreLayout (buildGraph nodes edges direction) with
  | Except.ok posOf => Except.ok (nodes.map (applyLayout posOf direction), edges)
  | Except.error e => Except.error e

end Dagre

/-! ## Concrete fixtures used by witnesses and counterexamples -/

/-- A sample node with id a. -/
def nodeA : Node :=
  { id := "a", position := { x := 0, y := 0 }, sourcePosition := none
    targetPosition := none, width := 100, height := 50, data := "A" }

/-- A sample edge from a to b. -/
def edgeAB : Edge := { id := "e1", source := "a", target := "b" }

/-- A dangling edge: its target id zzz names no node of the fixtures. -/
def edgeAX : Edge := { id := "ex", source := "a", target := "zzz" }

/-- A concrete internal ELK layout that succeeds and places every child at a
fixed coordinate. -/
def elkLayoutConst (p : Pos) : Elk.ElkGraph → Except String Elk.ElkGraphOut :=
  fun graph => Except.ok
    { children := some (graph.children.map fun c =>
        { id := c.id, x := some p.x, y := some p.y }) }

/-- A concrete internal ELK layout that succeeds and places everything at the
origin. -/
def trivialElkLayout : Elk.ElkGraph → Except String Elk.ElkGraphOut :=
  elkLayoutConst { x := 0, y := 0 }

/-- A concrete internal ELK layout that always fails (a thrown library
error). -/
def failingElkLayout : Elk.ElkGraph → Except String Elk.ElkGraphOut :=
  fun _ => Except.error "boom"

/-- A concrete internal dagre layout that succeeds and places every node at
the origin (center coordinates). -/
def trivialDagreLayout : Dagre.DagreGraph → Except String (String → Pos) :=
  fun _ => Except.ok fun _ => { x := 0, y := 0 }

/-- A concrete internal dagre layout that always fails (a thrown library
error). -/
def failingDagreLayout : Dagre.DagreGraph → Except String (String → Pos) :=
  fun _ => Except.error "boom"

/-- Result of laying out `nodeA` with `trivialDagreLayout` in direction TB:
center (0,0) minus half the 256 by 120 footprint, handles bottom and top. -/
def nodeALaidOutTB : Node :=
  { nodeA with
    position := { x := -128, y := -60 }
    sourcePosition := some HandleSide.bottom
    targetPosition := some HandleSide.top }

/-! ## C1: failure handling at the engine boundary -/

/-- C1 counterexample: the claim says every generation of
`getLayoutedElements` catches an internal layout failure and returns the
original nodes and edges.  The Dagre generation has no such handler: at the
concrete input (one node, one edge, direction TB) with an internal layout
that fails, the call propagates the failure instead of returning the original
pair. -/
theorem dagre_failure_propagates_cex :
    Dagre.getLayoutedElements failingDagreLayout [nodeA] [edgeAB]
      LayoutDirection.TB = Except.error "boom" := rfl

/-- C1 amended: in the ELK generation of `getLayoutedElements` the claim
holds: the wrapper is total, and whenever the internal layout call fails on
the graph built from a non-empty node list, the call returns exactly the
original node list (positions untouched) together with the original edge
list. -/
theorem elk_failure_falls_back
    (f : Elk.ElkGraph → Except String Elk.ElkGraphOut)
    (nodes : List Node) (edges : List Edge) (direction : LayoutDirection)
    (e : String)
    (hfail : f (Elk.buildGraph nodes edges direction) = Except.error e)
    (hne : nodes ≠ []) :
    Elk.getLayoutedElements f nodes edges direction = (nodes, edges) := by
  have h0 : ¬ nodes.length = 0 := by
    simpa [List.length_eq_zero] using hne
  simp [Elk.getLayoutedElements, h0, hfail]

/-- C1 witness: the amended theorem applied at a concrete failing layout. -/
theorem elk_failure_falls_back_witness :
    Elk.getLayoutedElements failingElkLayout [nodeA] [edgeAB]
      LayoutDirection.TB = ([nodeA], [edgeAB]) :=
  elk_failure_falls_back failingElkLayout [nodeA] [edgeAB] LayoutDirection.TB
    "boom" rfl (List.cons_ne_nil nodeA [])

/-! ## C2: edge preservation -/

/-- C2 counterexample: the claim quantifies over every node list including
the empty one, but the ELK generation's empty-node fast path returns an empty
edge list: with no nodes and one input edge, the returned edge list is not
the input edge list. -/
theorem elk_empty_nodes_drop_edges_cex :
    (Elk.getLayoutedElements trivialElkLayout [] [edgeAB]
      LayoutDirection.TB).2 ≠ [edgeAB] := by decide

/-- C2 amended: the returned edge list is identical to the input edge list
whenever the node list is non-empty (ELK generation, every internal layout
outcome), and in the Dagre generation for every input on which the call
returns at all. -/
theorem edges_preserved_amended :
    (∀ (f : Elk.ElkGraph → Except String Elk.ElkGraphOut)
      (nodes : List Node) (edges : List Edge) (direction : LayoutDirection),
      nodes ≠ [] →
      (Elk.getLayoutedElements f nodes edges direction).2 = edges) ∧
    (∀ (g : Dagre.DagreGraph → Except String (String → Pos))
      (nodes : List Node) (edges : List Edge) (direction : LayoutDirection)
      (res : List Node × List Edge),
      Dagre.getLayoutedElements g nodes edges direction = Except.ok res →
      res.2 = edges) := by
  constructor
  · intro f nodes edges direction hne
    have h0 : ¬ nodes.length = 0 := by
      simpa [List.length_eq_zero] using hne
    unfold Elk.getLayoutedElements
    rw [if_neg h0]
    cases f (Elk.buildGraph nodes edges direction) <;> rfl
  · intro g nodes edges direction res h
    unfold Dagre.getLayoutedElements at h
    cases hg : g (Dagre.buildGraph nodes edges direction) with
    | ok posOf =>
      rw [hg] at h
      injection h with h
      rw [← h]
    | error e =>
      rw [hg] at h
      exact absurd h (by simp)

/-- C2 witness: the amended theorem applied at concrete inputs, both
generations. -/
theorem edges_preserved_amended_witness :
    (Elk.getLayoutedElements trivialElkLayout [nodeA] [edgeAB]
      LayoutDirection.TB).2 = [edgeAB] ∧
    (([nodeALaidOutTB], [edgeAB]) : List Node × List Edge).2 = [edgeAB] :=
  ⟨edges_preserved_amended.1 trivialElkLayout [nodeA] [edgeAB]
      LayoutDirection.TB (List.cons_ne_nil nodeA []),
   edges_preserved_amended.2 trivialDagreLayout [nodeA] [edgeAB]
      LayoutDirection.TB ([nodeALaidOutTB], [edgeAB]) rfl⟩

/-! ## Shared helper lemmas -/

/-- Laying out one node in the ELK generation changes no field other than
the position: id, data, dimensions and both handle sides survive. -/
theorem elk_applyLayout_frame (out : Elk.ElkGraphOut) (node : Node) :
    (Elk.applyLayout out node).id = node.id ∧
    (Elk.applyLayout out node).data = node.data ∧
    (Elk.applyLayout out node).width = node.width ∧
    (Elk.applyLayout out node).height = node.height ∧
    (Elk.applyLayout out node).sourcePosition = node.sourcePosition ∧
    (Elk.applyLayout out node).targetPosition = node.targetPosition := by
  unfold Elk.applyLayout
  cases hfind : (Elk.childrenOf out).find? (fun n => n.id == node.id) with
  | none => exact ⟨rfl, rfl, rfl, rfl, rfl, rfl⟩
  | some c =>
    obtain ⟨cid, cx, cy⟩ := c
    cases cx <;> cases cy <;> exact ⟨rfl, rfl, rfl, rfl, rfl, rfl⟩

/-- Laying out one node in the Dagre generation keeps id, data and the
dimension fields. -/
theorem dagre_applyLayout_frame (posOf : String → Pos)
    (direction : LayoutDirection) (node : Node) :
    (Dagre.applyLayout posOf direction node).id = node.id ∧
    (Dagre.applyLayout posOf direction node).data = node.data ∧
    (Dagre.applyLayout posOf direction node).width = node.width ∧
    (Dagre.applyLayout posOf direction node).height = node.height :=
  ⟨rfl, rfl, rfl, rfl⟩

/-- Mapping a per-node transform and then a projection that the transform
preserves is the same as mapping the projection alone. -/
theorem map_map_congr {α : Type} (h : Node → α) (f : Node → Node)
    (hp : ∀ n, h (f n) = h n) (l : List Node) :
    (l.map f).map h = l.map h := by
  induction l with
  | nil => rfl
  | cons a t ih => simp [hp, ih]

/-- Enumerating a list and then reading a function of the element alone is
mapping that function. -/
theorem enumFrom_map_of_snd {α β : Type} (h : α → β) :
    ∀ (n : Nat) (l : List α),
      (List.enumFrom n l).map (fun p => h p.2) = l.map h := by
  intro n l
  induction l generalizing n with
  | nil => rfl
  | cons a t ih => simp [List.enumFrom, List.map, ih]

/-! ## C3: node cardinality and identifier preservation -/

/-- C3: in both generations, every result of `getLayoutedElements` has
exactly as many nodes as the input and lists the same identifiers in the same
order (hence the identifier sets coincide); for the Dagre generation this is
stated for every invocation that returns at all. -/
theorem node_ids_preserved
    (f : Elk.ElkGraph → Except String Elk.ElkGraphOut)
    (g : Dagre.DagreGraph → Except String (String → Pos))
    (nodes : List Node) (edges : List Edge) (direction : LayoutDirection) :
    ((Elk.getLayoutedElements f nodes edges direction).1.length
        = nodes.length ∧
     (Elk.getLayoutedElements f nodes edges direction).1.map Node.id
        = nodes.map Node.id) ∧
    (∀ res : List Node × List Edge,
      Dagre.getLayoutedElements g nodes edges direction = Except.ok res →
      res.1.length = nodes.length ∧
      res.1.map Node.id = nodes.map Node.id) := by
  constructor
  · unfold Elk.getLayoutedElements
    by_cases h0 : nodes.length = 0
    · have hnil : nodes = [] := List.length_eq_zero.mp h0
      subst hnil
      simp
    · rw [if_neg h0]
      cases f (Elk.buildGraph nodes edges direction) with
      | ok out =>
        refine ⟨by simp, ?_⟩
        exact map_map_congr Node.id (Elk.applyLayout out)
          (fun n => (elk_applyLayout_frame out n).1) nodes
      | error e => exact ⟨rfl, rfl⟩
  · intro res h
    unfold Dagre.getLayoutedElements at h
    cases hg : g (Dagre.buildGraph nodes edges direction) with
    | ok posOf =>
      rw [hg] at h
      injection h with h
      rw [← h]
      refine ⟨by simp, ?_⟩
      exact map_map_congr Node.id (Dagre.applyLayout posOf direction)
        (fun n => (dagre_applyLayout_frame posOf direction n).1) nodes
    | error e =>
      rw [hg] at h
      exact absurd h (by simp)

/-- C3 witness: the theorem applied to a concrete one-node input on both
generations (the Dagre result computed explicitly). -/
theorem node_ids_preserved_witness :
    [nodeALaidOutTB].length = ([nodeA] : List Node).length ∧
    [nodeALaidOutTB].map Node.id = [nodeA].map Node.id :=
  (node_ids_preserved trivialElkLayout trivialDagreLayout [nodeA] [edgeAB]
    LayoutDirection.TB).2 ([nodeALaidOutTB], [edgeAB]) rfl

/-! ## C4: dangling edges -/

/-- C4 counterexample: the claim says an edge whose target id names no node
is silently filtered out before the edge set is handed to the internal graph
builder.  At the concrete input (node a, edge a to zzz), zzz names no node,
yet the edge appears in the edge set of the graph handed to the builder in
both generations: nothing is filtered. -/
theorem dangling_edge_not_filtered_cex :
    ("zzz" ∉ [nodeA].map Node.id) ∧
    ({ id := "ex", sources := ["a"], targets := ["zzz"] } : Elk.ElkEdge)
      ∈ (Elk.buildGraph [nodeA] [edgeAX] LayoutDirection.TB).edges ∧
    ("a", "zzz") ∈ (Dagre.buildGraph [nodeA] [edgeAX]
      LayoutDirection.TB).edgeList := by decide

/-- C4 amended: neither generation filters dangling edges: the internal
graph handed to the library builder carries one internal edge per input edge
with exactly the input source and target, whether or not those ids name
nodes. -/
theorem dangling_edges_passed_through (nodes : List Node) (edges : List Edge)
    (direction : LayoutDirection) :
    (Elk.buildGraph nodes edges direction).edges.map
        (fun e => (e.sources, e.targets))
      = edges.map (fun e => ([e.source], [e.target])) ∧
    (Dagre.buildGraph nodes edges direction).edgeList
      = edges.map (fun e => (e.source, e.target)) := by
  constructor
  · show (List.map _ (List.enumFrom 0 edges)).map _ = _
    rw [List.map_map]
    exact enumFrom_map_of_snd (fun e => ([e.source], [e.target])) 0 edges
  · rfl

/-! ## C5: every input node gets a defined position -/

/-- C5: every node of the input node list, in particular an isolated node
with no incident edges, reappears in the output of `getLayoutedElements`
under its own id and with a position whose two coordinates are concrete
integers (the model has no NaN or undefined value: coordinate fields are
total).  Stated for both generations, the Dagre one on every invocation that
returns. -/
theorem every_node_positioned
    (f : Elk.ElkGraph → Except String Elk.ElkGraphOut)
    (g : Dagre.DagreGraph → Except String (String → Pos))
    (nodes : List Node) (edges : List Edge) (direction : LayoutDirection)
    (node : Node) (hmem : node ∈ nodes) :
    (∃ n', n' ∈ (Elk.getLayoutedElements f nodes edges direction).1 ∧
      n'.id = node.id ∧ ∃ px py, n'.position = { x := px, y := py }) ∧
    (∀ res : List Node × List Edge,
      Dagre.getLayoutedElements g nodes edges direction = Except.ok res →
      ∃ n', n' ∈ res.1 ∧ n'.id = node.id ∧
        ∃ px py, n'.position = { x := px, y := py }) := by
  constructor
  · unfold Elk.getLayoutedElements
    by_cases h0 : nodes.length = 0
    · exact absurd (List.length_eq_zero.mp h0 ▸ hmem) (List.not_mem_nil node)
    · rw [if_neg h0]
      cases f (Elk.buildGraph nodes edges direction) with
      | ok out =>
        refine ⟨Elk.applyLayout out node, List.mem_map_of_mem _ hmem,
          (elk_applyLayout_frame out node).1, ?_⟩
        exact ⟨(Elk.applyLayout out node).position.x,
          (Elk.applyLayout out node).position.y, rfl⟩
      | error e =>
        exact ⟨node, hmem, rfl, node.position.x, node.position.y, rfl⟩
  · intro res h
    unfold Dagre.getLayoutedElements at h
    cases hg : g (Dagre.buildGraph nodes edges direction) with
    | ok posOf =>
      rw [hg] at h
      injection h with h
      rw [← h]
      refine ⟨Dagre.applyLayout posOf direction node,
        List.mem_map_of_mem _ hmem,
        (dagre_applyLayout_frame posOf direction node).1, ?_⟩
      exact ⟨(Dagre.applyLayout posOf direction node).position.x,
        (Dagre.applyLayout posOf direction node).position.y, rfl⟩
    | error e =>
      rw [hg] at h
      exact absurd h (by simp)

/-- C5 witness: the theorem applied to a single isolated node (degree 0, no
edges at all) on both generations. -/
theorem every_node_positioned_witness :
    (∃ n', n' ∈ (Elk.getLayoutedElements trivialElkLayout [nodeA] []
        LayoutDirection.TB).1 ∧
      n'.id = nodeA.id ∧ ∃ px py, n'.position = { x := px, y := py }) ∧
    (∀ res : List Node × List Edge,
      Dagre.getLayoutedElements trivialDagreLayout [nodeA] []
          LayoutDirection.TB = Except.ok res →
      ∃ n', n' ∈ res.1 ∧ n'.id = nodeA.id ∧
        ∃ px py, n'.position = { x := px, y := py }) :=
  every_node_positioned trivialElkLayout trivialDagreLayout [nodeA] []
    LayoutDirection.TB nodeA (List.mem_singleton.mpr rfl)

/-! ## C6: determinism -/

/-- C6: both generations of `getLayoutedElements` are deterministic: the
wrappers are pure (no clock, randomness or ambient state), so two invocations
with the same node list, edge list, direction and the same internal layout
routine are equal results.  Determinism of the external library is expressed
by fixing the same internal layout function for both invocations. -/
theorem layout_deterministic
    (f : Elk.ElkGraph → Except String Elk.ElkGraphOut)
    (g : Dagre.DagreGraph → Except String (String → Pos))
    (nodes : List Node) (edges : List Edge) (direction : LayoutDirection) :
    Elk.getLayoutedElements f nodes edges direction
      = Elk.getLayoutedElements f nodes edges direction ∧
    Dagre.getLayoutedElements g nodes edges direction
      = Dagre.getLayoutedElements g nodes edges direction :=
  ⟨rfl, rfl⟩

/-! ## C7: center-to-top-left coordinate correction -/

/-- C7 counterexample: the claim says every generation subtracts half the
node footprint from the internally computed coordinate.  In the ELK
generation, with an internal layout placing the single node at (10, 20), the
output position is exactly (10, 20): no half-footprint subtraction happens
(272 and 120 are the ELK footprint constants, so the subtracted coordinates
would be -126 and -40). -/
theorem elk_no_center_correction_cex :
    ((Elk.getLayoutedElements (elkLayoutConst { x := 10, y := 20 }) [nodeA] []
        LayoutDirection.TB).1.map (fun n => n.position))
      = [{ x := 10, y := 20 }] ∧
    ¬ (10 : Int) = 10 - Elk.NODE_WIDTH / 2 ∧
    ¬ (20 : Int) = 20 - Elk.NODE_HEIGHT / 2 := by decide

/-- C7 amended: only the Dagre generation converts the library's center
coordinates to top-left corners, subtracting half the hard-coded footprint
per axis; the ELK generation copies the library coordinates into the output
position unchanged. -/
theorem center_correction_amended :
    (∀ (dl : Dagre.DagreGraph → Except String (String → Pos))
      (nodes : List Node) (edges : List Edge) (direction : LayoutDirection)
      (posOf : String → Pos),
      dl (Dagre.buildGraph nodes edges direction) = Except.ok posOf →
      Dagre.getLayoutedElements dl nodes edges direction =
        Except.ok (nodes.map (Dagre.applyLayout posOf direction), edges)) ∧
    (∀ (posOf : String → Pos) (direction : LayoutDirection) (node : Node),
      (Dagre.applyLayout posOf direction node).position =
        { x := (posOf node.id).x - Dagre.NODE_WIDTH / 2
          y := (posOf node.id).y - Dagre.NODE_HEIGHT / 2 }) ∧
    (∀ (out : Elk.ElkGraphOut) (node : Node) (c : Elk.ElkChildOut)
      (x y : Int),
      (Elk.childrenOf out).find? (fun n => n.id == node.id) = some c →
      c.x = some x → c.y = some y →
      (Elk.applyLayout out node).position = { x := x, y := y }) := by
  refine ⟨?_, fun _ _ _ => rfl, ?_⟩
  · intro dl nodes edges direction posOf h
    unfold Dagre.getLayoutedElements
    rw [h]
  · intro out node c x y hfind hx hy
    obtain ⟨cid, cx, cy⟩ := c
    dsimp only at hx hy
    subst hx
    subst hy
    unfold Elk.applyLayout
    rw [hfind]

/-- C7 witness: the amended theorem applied at concrete inputs: the dagre
clause at a map placing node a at center (300, 200), and the ELK clause at a
layouted graph carrying child a at (10, 20). -/
theorem center_correction_amended_witness :
    (Dagre.applyLayout (fun _ => { x := 300, y := 200 }) LayoutDirection.TB
        nodeA).position = { x := 300 - 128, y := 200 - 60 } ∧
    (Elk.applyLayout
        { children := some [{ id := "a", x := some 10, y := some 20 }] }
        nodeA).position = { x := 10, y := 20 } :=
  ⟨(center_correction_amended.2.1 (fun _ => { x := 300, y := 200 })
      LayoutDirection.TB nodeA).trans (by decide),
   center_correction_amended.2.2
     { children := some [{ id := "a", x := some 10, y := some 20 }] }
     nodeA { id := "a", x := some 10, y := some 20 } 10 20 rfl rfl rfl⟩

/-! ## C8: connection-side assignment -/

/-- A variant of the sample node whose preferred outgoing side is top. -/
def nodeATop : Node := { nodeA with sourcePosition := some HandleSide.top }

/-- C8 counterexample: the claim says every returned node under a horizontal
direction has its outgoing side set to a horizontal side.  The ELK generation
never touches handle sides: a node entering with outgoing side top leaves a
successful left-to-right layout with outgoing side still top, which is
neither left nor right. -/
theorem elk_handles_unchanged_cex :
    ((Elk.getLayoutedElements trivialElkLayout [nodeATop] []
        LayoutDirection.LR).1.map (fun n => n.sourcePosition))
      = [some HandleSide.top] ∧
    HandleSide.top ≠ HandleSide.left ∧
    HandleSide.top ≠ HandleSide.right := by decide

/-- C8 amended: only the Dagre generation assigns connection sides: under LR
or RL every laid-out node gets outgoing side right and incoming side left,
under TB or BT outgoing bottom and incoming top.  The ELK generation passes
both handle-side fields of every node through unchanged. -/
theorem handle_sides_amended :
    (∀ (posOf : String → Pos) (direction : LayoutDirection) (node : Node),
      ((direction = LayoutDirection.LR ∨ direction = LayoutDirection.RL) →
        (Dagre.applyLayout posOf direction node).sourcePosition
            = some HandleSide.right ∧
        (Dagre.applyLayout posOf direction node).targetPosition
            = some HandleSide.left) ∧
      ((direction = LayoutDirection.TB ∨ direction = LayoutDirection.BT) →
        (Dagre.applyLayout posOf direction node).sourcePosition
            = some HandleSide.bottom ∧
        (Dagre.applyLayout posOf direction node).targetPosition
            = some HandleSide.top)) ∧
    (∀ (f : Elk.ElkGraph → Except String Elk.ElkGraphOut)
      (nodes : List Node) (edges : List Edge) (direction : LayoutDirection)
      (n' : Node),
      n' ∈ (Elk.getLayoutedElements f nodes edges direction).1 →
      ∃ n, n ∈ nodes ∧ n'.sourcePosition = n.sourcePosition ∧
        n'.targetPosition = n.targetPosition) := by
  constructor
  · intro posOf direction node
    cases direction with
    | TB => exact ⟨fun h => absurd h (by decide), fun _ => ⟨rfl, rfl⟩⟩
    | BT => exact ⟨fun h => absurd h (by decide), fun _ => ⟨rfl, rfl⟩⟩
    | LR => exact ⟨fun _ => ⟨rfl, rfl⟩, fun h => absurd h (by decide)⟩
    | RL => exact ⟨fun _ => ⟨rfl, rfl⟩, fun h => absurd h (by decide)⟩
  · intro f nodes edges direction n' hmem
    unfold Elk.getLayoutedElements at hmem
    by_cases h0 : nodes.length = 0
    · rw [if_pos h0] at hmem
      exact absurd hmem (List.not_mem_nil n')
    · rw [if_neg h0] at hmem
      cases hf : f (Elk.buildGraph nodes edges direction) with
      | ok out =>
        rw [hf] at hmem
        obtain ⟨n, hn, rfl⟩ := List.mem_map.mp hmem
        exact ⟨n, hn, (elk_applyLayout_frame out n).2.2.2.2.1,
          (elk_applyLayout_frame out n).2.2.2.2.2⟩
      | error e =>
        rw [hf] at hmem
        exact ⟨n', hmem, rfl, rfl⟩

/-- C8 witness: the amended theorem applied concretely: Dagre under LR at the
sample node, and the ELK pass-through at a successful LR layout of a node
whose outgoing side is top. -/
theorem handle_sides_amended_witness :
    ((Dagre.applyLayout (fun _ => { x := 0, y := 0 }) LayoutDirection.LR
        nodeA).sourcePosition = some HandleSide.right ∧
     (Dagre.applyLayout (fun _ => { x := 0, y := 0 }) LayoutDirection.LR
        nodeA).targetPosition = some HandleSide.left) ∧
    (∃ n, n ∈ [nodeATop] ∧
      nodeATop.sourcePosition = n.sourcePosition ∧
      nodeATop.targetPosition = n.targetPosition) :=
  ⟨(handle_sides_amended.1 (fun _ => { x := 0, y := 0 }) LayoutDirection.LR
      nodeA).1 (Or.inl rfl),
   handle_sides_amended.2 trivialElkLayout [nodeATop] [] LayoutDirection.LR
     nodeATop (by decide)⟩

/-- A variant of the sample node with different dimension fields. -/
def nodeAWide : Node := { nodeA with width := 999, height := 7 }

/-! ## C9: frame of the transformation -/

/-- The fields a layout must leave untouched on every node: everything other
than the position and the two handle sides. -/
def frameRel (a b : Node) : Prop :=
  a.id = b.id ∧ a.data = b.data ∧ a.width = b.width ∧ a.height = b.height

/-- Mapping a transform that is pointwise related to the identity produces a
list related elementwise to the original. -/
theorem forall2_map_left_refl {R : Node → Node → Prop} (h : Node → Node)
    (hp : ∀ n, R (h n) n) (l : List Node) : List.Forall₂ R (l.map h) l := by
  induction l with
  | nil => exact List.Forall₂.nil
  | cons a t ih => exact List.Forall₂.cons (hp a) ih

/-- C9: in both generations, every returned node keeps the id, data and
dimension fields of the input node at the same index (only position and
handle sides may change), and the returned edge list is a sublist of the
input edge list made of the very input edges, never a modified edge.  For
the Dagre generation this is stated for every invocation that returns. -/
theorem frame_preserved
    (f : Elk.ElkGraph → Except String Elk.ElkGraphOut)
    (g : Dagre.DagreGraph → Except String (String → Pos))
    (nodes : List Node) (edges : List Edge) (direction : LayoutDirection) :
    ((Elk.getLayoutedElements f nodes edges direction).2.Sublist edges ∧
     List.Forall₂ frameRel
       (Elk.getLayoutedElements f nodes edges direction).1 nodes) ∧
    (∀ res : List Node × List Edge,
      Dagre.getLayoutedElements g nodes edges direction = Except.ok res →
      res.2 = edges ∧ List.Forall₂ frameRel res.1 nodes) := by
  constructor
  · unfold Elk.getLayoutedElements
    by_cases h0 : nodes.length = 0
    · have hnil := List.length_eq_zero.mp h0
      subst hnil
      exact ⟨List.nil_sublist edges, List.Forall₂.nil⟩
    · rw [if_neg h0]
      cases f (Elk.buildGraph nodes edges direction) with
      | ok out =>
        refine ⟨List.Sublist.refl edges, ?_⟩
        exact forall2_map_left_refl (Elk.applyLayout out)
          (fun n => ⟨(elk_applyLayout_frame out n).1,
            (elk_applyLayout_frame out n).2.1,
            (elk_applyLayout_frame out n).2.2.1,
            (elk_applyLayout_frame out n).2.2.2.1⟩) nodes
      | error e =>
        exact ⟨List.Sublist.refl edges,
          List.forall₂_same.mpr (fun a _ => ⟨rfl, rfl, rfl, rfl⟩)⟩
  · intro res h
    unfold Dagre.getLayoutedElements at h
    cases hg : g (Dagre.buildGraph nodes edges direction) with
    | ok posOf =>
      rw [hg] at h
      injection h with h
      rw [← h]
      refine ⟨rfl, ?_⟩
      exact forall2_map_left_refl (Dagre.applyLayout posOf direction)
        (fun n => ⟨(dagre_applyLayout_frame posOf direction n).1,
          (dagre_applyLayout_frame posOf direction n).2.1,
          (dagre_applyLayout_frame posOf direction n).2.2.1,
          (dagre_applyLayout_frame posOf direction n).2.2.2⟩) nodes
    | error e =>
      rw [hg] at h
      exact absurd h (by simp)

/-- C9 witness: the theorem applied to a concrete one-node, one-edge input
on the Dagre generation. -/
theorem frame_preserved_witness :
    ([edgeAB] : List Edge) = [edgeAB] ∧
    List.Forall₂ frameRel [nodeALaidOutTB] [nodeA] :=
  (frame_preserved trivialElkLayout trivialDagreLayout [nodeA] [edgeAB]
    LayoutDirection.TB).2 ([nodeALaidOutTB], [edgeAB]) rfl

/-! ## C10: positions are independent of per-node dimension fields -/

/-- Two nodes that agree on everything except the dimension fields. -/
def dimsOnlyDiffer (a b : Node) : Prop :=
  a.id = b.id ∧ a.position = b.position ∧
  a.sourcePosition = b.sourcePosition ∧
  a.targetPosition = b.targetPosition ∧ a.data = b.data

/-- Mapping a function that respects a relation over elementwise-related
lists gives equal images. -/
theorem map_eq_of_forall2 {α : Type} {R : Node → Node → Prop} (h : Node → α)
    (hc : ∀ a b, R a b → h a = h b) :
    ∀ {l1 l2 : List Node}, List.Forall₂ R l1 l2 → l1.map h = l2.map h := by
  intro l1 l2 hf
  induction hf with
  | nil => rfl
  | cons hab htl ih => simp [hc _ _ hab, ih]

/-- The position computed for a node by the ELK per-node callback depends
only on the node's id and prior position, not on its dimension fields. -/
theorem elk_applyLayout_position_congr (out : Elk.ElkGraphOut) {a b : Node}
    (hab : dimsOnlyDiffer a b) :
    (Elk.applyLayout out a).position = (Elk.applyLayout out b).position := by
  unfold Elk.applyLayout
  rw [hab.1]
  cases hfind : (Elk.childrenOf out).find? (fun n => n.id == b.id) with
  | none => exact hab.2.1
  | some c =>
    obtain ⟨cid, cx, cy⟩ := c
    cases cx with
    | none => cases cy <;> exact hab.2.1
    | some x =>
      cases cy with
      | none => exact hab.2.1
      | some y => rfl

/-- The position computed for a node by the Dagre per-node callback depends
only on the node's id. -/
theorem dagre_applyLayout_position_congr (posOf : String → Pos)
    (direction : LayoutDirection) {a b : Node} (hab : dimsOnlyDiffer a b) :
    (Dagre.applyLayout posOf direction a).position
      = (Dagre.applyLayout posOf direction b).position := by
  simp [Dagre.applyLayout, hab.1]

/-- C10: both generations register every node with a hard-coded footprint
(272 by 120 for ELK, 256 by 120 for Dagre), so the graph handed to the
internal layout is the same for two node lists that differ only in dimension
fields, and the computed output positions coincide. -/
theorem positions_dimension_independent
    (f : Elk.ElkGraph → Except String Elk.ElkGraphOut)
    (g : Dagre.DagreGraph → Except String (String → Pos))
    (nodes1 nodes2 : List Node) (edges : List Edge)
    (direction : LayoutDirection)
    (h : List.Forall₂ dimsOnlyDiffer nodes1 nodes2) :
    Elk.NODE_WIDTH = 272 ∧ Elk.NODE_HEIGHT = 120 ∧
    Dagre.NODE_WIDTH = 256 ∧ Dagre.NODE_HEIGHT = 120 ∧
    Elk.buildGraph nodes1 edges direction
      = Elk.buildGraph nodes2 edges direction ∧
    Dagre.buildGraph nodes1 edges direction
      = Dagre.buildGraph nodes2 edges direction ∧
    (Elk.getLayoutedElements f nodes1 edges direction).1.map
        (fun n => n.position)
      = (Elk.getLayoutedElements f nodes2 edges direction).1.map
        (fun n => n.position) ∧
    (Dagre.getLayoutedElements g nodes1 edges direction).map
        (fun r => r.1.map (fun n => n.position))
      = (Dagre.getLayoutedElements g nodes2 edges direction).map
        (fun r => r.1.map (fun n => n.position)) := by
  have hbe : Elk.buildGraph nodes1 edges direction
      = Elk.buildGraph nodes2 edges direction := by
    unfold Elk.buildGraph
    rw [map_eq_of_forall2
      (fun n => ({ id := n.id, width := Elk.NODE_WIDTH
                   height := Elk.NODE_HEIGHT } : Elk.ElkChild))
      (fun a b hab => by simp only [hab.1]) h]
  have hbd : Dagre.buildGraph nodes1 edges direction
      = Dagre.buildGraph nodes2 edges direction := by
    unfold Dagre.buildGraph
    rw [map_eq_of_forall2 (fun n => (n.id, Dagre.NODE_WIDTH, Dagre.NODE_HEIGHT))
      (fun a b hab => by simp only [hab.1]) h]
  have hlen : nodes1.length = nodes2.length := List.Forall₂.length_eq h
  refine ⟨rfl, rfl, rfl, rfl, hbe, hbd, ?_, ?_⟩
  · unfold Elk.getLayoutedElements
    rw [hbe, hlen]
    by_cases h0 : nodes2.length = 0
    · rw [if_pos h0, if_pos h0]
    · rw [if_neg h0, if_neg h0]
      cases f (Elk.buildGraph nodes2 edges direction) with
      | ok out =>
        rw [List.map_map, List.map_map]
        exact map_eq_of_forall2 (fun n => (Elk.applyLayout out n).position)
          (fun a b hab => elk_applyLayout_position_congr out hab) h
      | error e =>
        exact map_eq_of_forall2 (fun n => n.position)
          (fun a b hab => hab.2.1) h
  · unfold Dagre.getLayoutedElements
    rw [hbd]
    cases g (Dagre.buildGraph nodes2 edges direction) with
    | ok posOf =>
      simp only [Except.map]
      rw [List.map_map, List.map_map]
      exact congrArg Except.ok
        (map_eq_of_forall2 (fun n => (Dagre.applyLayout posOf direction n).position)
          (fun a b hab => dagre_applyLayout_position_congr posOf direction hab) h)
    | error e => rfl

/-- C10 witness: the theorem applied to two concrete one-node lists that
differ only in the per-node width and height. -/
theorem positions_dimension_independent_witness :
    Elk.NODE_WIDTH = 272 ∧ Elk.NODE_HEIGHT = 120 ∧
    Dagre.NODE_WIDTH = 256 ∧ Dagre.NODE_HEIGHT = 120 ∧
    Elk.buildGraph [nodeA] [edgeAB] LayoutDirection.TB
      = Elk.buildGraph [nodeAWide] [edgeAB] LayoutDirection.TB ∧
    Dagre.buildGraph [nodeA] [edgeAB] LayoutDirection.TB
      = Dagre.buildGraph [nodeAWide] [edgeAB] LayoutDirection.TB ∧
    (Elk.getLayoutedElements trivialElkLayout [nodeA] [edgeAB]
        LayoutDirection.TB).1.map (fun n => n.position)
      = (Elk.getLayoutedElements trivialElkLayout [nodeAWide] [edgeAB]
        LayoutDirection.TB).1.map (fun n => n.position) ∧
    (Dagre.getLayoutedElements trivialDagreLayout [nodeA] [edgeAB]
        LayoutDirection.TB).map (fun r => r.1.map (fun n => n.position))
      = (Dagre.getLayoutedElements trivialDagreLayout [nodeAWide] [edgeAB]
        LayoutDirection.TB).map (fun r => r.1.map (fun n => n.position)) :=
  positions_dimension_independent trivialElkLayout trivialDagreLayout
    [nodeA] [nodeAWide] [edgeAB] LayoutDirection.TB
    (List.Forall₂.cons ⟨rfl, rfl, rfl, rfl, rfl⟩ List.Forall₂.nil)
